import Mathlib

/-!
Verification of the benchmarking-tool repository (Go).

Shallow embedding conventions used throughout this development:
* Go `int`, `int64` and `time.Duration` values are modelled as `Int`
  (the tool's arithmetic stays far from the 64-bit boundary, so
  wrap-around is not modelled);
* Go `float64` weights are modelled as `Rat`; the concrete inputs used
  in counterexamples are dyadic rationals on which binary floating
  point arithmetic is exact, so the model and the source agree there;
* Go maps used as histograms are modelled as association lists, wrapped
  in `Option` so that a nil map (`none`) is distinguishable from a
  made, empty map (`some []`), exactly as in Go;
* fallible Go functions return `Except`; randomness (crypto/rand) is
  passed in as an explicit outcome; run-time panics (index out of
  range, `rand.Int` with a non-positive bound, `make` with a negative
  length) are modelled by an explicit `panicked` result constructor.
-/

namespace Benchmark

/-! ## Definitions: shallow embedding of the Go source -/

/-- MetricDetail from package metrics: one record per request attempt. -/
structure MetricDetail where
  url : String
  method : String
  statusCode : Int
  duration : Int
  isError : Bool
  errorMsg : String
  timestamp : Int
deriving Repr, DecidableEq

/-- AggregatedResults from package metrics.  The two histogram fields are
`Option` association lists: `none` models a nil Go map, `some m` a made map. -/
structure AggregatedResults where
  totalRequests : Int
  successfulRequests : Int
  failedRequests : Int
  totalDuration : Int
  avgDuration : Int
  minDuration : Int
  maxDuration : Int
  statusCodesCount : Option (List (Int × Int))
  errorDetails : Option (List (String × Int))
deriving Repr, DecidableEq

/-- Go map increment `m[k]++` on an association list: bump the existing
entry or append a fresh entry with count 1. -/
def mapIncr {α : Type} [DecidableEq α] : List (α × Int) → α → List (α × Int)
  | [], k => [(k, 1)]
  | (k', v) :: rest, k =>
      if k = k' then (k', v + 1) :: rest else (k', v) :: mapIncr rest k

/-- Failure predicate of GetResults: `r.IsError || r.StatusCode >= 400`. -/
def isFailure (r : MetricDetail) : Bool :=
  r.isError || decide (400 ≤ r.statusCode)

/-- One iteration of the `for _, r := range c.allRequests` loop in
GetResults, written as a pure state transformer.  Each field update
mirrors one mutation of the Go loop body. -/
def getResultsStep (res : AggregatedResults) (r : MetricDetail) : AggregatedResults :=
  { totalRequests := res.totalRequests + 1
    totalDuration := res.totalDuration + r.duration
    successfulRequests :=
      if isFailure r then res.successfulRequests else res.successfulRequests + 1
    failedRequests :=
      if isFailure r then res.failedRequests + 1 else res.failedRequests
    errorDetails :=
      if isFailure r then
        if r.errorMsg ≠ "" then res.errorDetails.map (fun m => mapIncr m r.errorMsg)
        else res.errorDetails
      else res.errorDetails
    statusCodesCount := res.statusCodesCount.map (fun m => mapIncr m r.statusCode)
    avgDuration := res.avgDuration
    minDuration := if r.duration < res.minDuration then r.duration else res.minDuration
    maxDuration := if r.duration > res.maxDuration then r.duration else res.maxDuration }

/-- State of `var res AggregatedResults` right before the GetResults loop:
zero values everywhere, made (empty) maps, and MinDuration initialised
with the duration of the first record. -/
def getResultsInit (first : MetricDetail) : AggregatedResults :=
  { totalRequests := 0, successfulRequests := 0, failedRequests := 0
    totalDuration := 0, avgDuration := 0
    minDuration := first.duration, maxDuration := 0
    statusCodesCount := some [], errorDetails := some [] }

/-- GetResults from package metrics.  The empty case returns the zeroed
struct with made (empty) maps; otherwise MinDuration is initialised with
the first record duration, the loop runs over all records, and the
average is the truncating integer division of Go (`Int.tdiv`). -/
def getResults (allRequests : List MetricDetail) : AggregatedResults :=
  match allRequests with
  | [] =>
      { totalRequests := 0, successfulRequests := 0, failedRequests := 0
        totalDuration := 0, avgDuration := 0, minDuration := 0, maxDuration := 0
        statusCodesCount := some [], errorDetails := some [] }
  | first :: _ =>
      let res := allRequests.foldl getResultsStep (getResultsInit first)
      if 0 < res.totalRequests then
        { res with avgDuration := Int.tdiv res.totalDuration res.totalRequests }
      else
        { res with minDuration := 0 }

/-- Concrete sample record used by witnesses. -/
def sampleDetail : MetricDetail :=
  { url := "u", method := "GET", statusCode := 200, duration := 5
    isError := false, errorMsg := "", timestamp := 0 }

/-- Outcome of one call to crypto/rand.Int: a successful draw (a natural
number; uniformity in [0, bound) is stated as a hypothesis where it
matters) or a reader error. -/
inductive RandOutcome where
  | val (n : Nat)
  | fail (msg : String)
deriving Repr, DecidableEq

/-- Result of a generator evaluation: a returned value, a returned Go
error, or a run-time panic of the process. -/
inductive GenResult (α : Type) where
  | ok (value : α)
  | err (msg : String)
  | panicked (msg : String)
deriving Repr, DecidableEq

/-- RandomIntGenerator.Generate: if Min >= Max return Min; otherwise draw
num in [0, Max-Min+1) and return Min + num; a reader error is wrapped. -/
def randomIntGenerate (minV maxV : Int) (rnd : RandOutcome) : GenResult Int :=
  if maxV ≤ minV then .ok minV
  else
    match rnd with
    | .fail m => .err ("failed to generate random int: " ++ m)
    | .val n => .ok (minV + (n : Int))

/-- Go conversion int64(x) of a float64, in the rational model:
truncation toward zero (floor for non-negative x, ceiling below zero). -/
def truncToInt (q : Rat) : Int := if 0 ≤ q then ⌊q⌋ else ⌈q⌉

/-- Loop of ChoiceGenerator.generateWeightedChoice: for i, weight in
weights, cumulative += weight and if target <= cumulative return
values[i] (an out-of-range index would panic); none when the loop ends
without selecting. -/
def weightedLoop {α : Type} (values : List α) (target : Rat) :
    List Rat → Rat → Nat → Option (GenResult α)
  | [], _, _ => none
  | w :: rest, cumulative, i =>
      if target ≤ cumulative + w then
        some (match values[i]? with
          | some v => GenResult.ok v
          | none => GenResult.panicked "index out of range")
      else weightedLoop values target rest (cumulative + w) (i + 1)

/-- ChoiceGenerator.generateWeightedChoice.  The running sum of the
weights is totalWeight; when it is <= 0 the first value is returned;
otherwise crypto/rand.Int is called with bound int64(totalWeight*1000),
which panics when that bound is not positive; on a successful draw num,
target = num/1000 and the cumulative walk selects a value, with the
documented fall-back to the last value. -/
def generateWeightedChoice {α : Type} (values : List α) (weights : List Rat)
    (rnd : RandOutcome) : GenResult α :=
  let totalWeight := weights.foldl (· + ·) 0
  if totalWeight ≤ 0 then
    match values[0]? with
    | some v => .ok v
    | none => .panicked "index out of range"
  else
    if truncToInt (totalWeight * 1000) ≤ 0 then
      .panicked "crypto/rand: argument to Int is <= 0"
    else
      match rnd with
      | .fail m => .err ("failed to generate weighted choice: " ++ m)
      | .val num =>
          match weightedLoop values ((num : Rat) / 1000) weights 0 0 with
          | some r => r
          | none =>
              match values.getLast? with
              | some v => .ok v
              | none => .panicked "index out of range"

/-- ChoiceGenerator.Generate: error on empty values; weighted draw only
when the weights are non-empty and of the same length as the values;
otherwise a uniform draw over the values. -/
def choiceGenerate {α : Type} (values : List α) (weights : List Rat)
    (rnd : RandOutcome) : GenResult α :=
  if values.length = 0 then .err "no values provided for choice generator"
  else if 0 < weights.length ∧ weights.length = values.length then
    generateWeightedChoice values weights rnd
  else
    match rnd with
    | .fail m => .err ("failed to generate choice: " ++ m)
    | .val num =>
        match values[num]? with
        | some v => .ok v
        | none => .panicked "index out of range"

/-- Specification-side walk, phrased from the claim: walk the cumulative
sums of the weights in order and return the first value whose cumulative
weight is at least x; none when the lists run out. -/
def specWalk {α : Type} : List α → List Rat → Rat → Rat → Option α
  | v :: vs, w :: ws, x, acc =>
      if x ≤ acc + w then some v else specWalk vs ws x (acc + w)
  | _, _, _, _ => none

/-- Specification-side weighted pick: the cumulative walk with the
documented fall-back to the last value. -/
def specWeightedPick {α : Type} (values : List α) (weights : List Rat)
    (x : Rat) : Option α :=
  match specWalk values weights x 0 with
  | some v => some v
  | none => values.getLast?

/-- getCharset from package config. -/
def getCharset (charsetType : String) : String :=
  match charsetType with
  | "alpha" => "abcdefghijklmnopqrstuvwxyzABCDEFGHIJKLMNOPQRSTUVWXYZ"
  | "alpha_lower" => "abcdefghijklmnopqrstuvwxyz"
  | "alpha_upper" => "ABCDEFGHIJKLMNOPQRSTUVWXYZ"
  | "numeric" => "0123456789"
  | "alphanumeric" =>
      "abcdefghijklmnopqrstuvwxyzABCDEFGHIJKLMNOPQRSTUVWXYZ0123456789"
  | "hex" => "0123456789abcdef"
  | _ => "abcdefghijklmnopqrstuvwxyzABCDEFGHIJKLMNOPQRSTUVWXYZ0123456789"

/-- Character loop of RandomStringGenerator.Generate: one crypto/rand
draw per position; a reader error aborts with a wrapped error; an
out-of-range charset index would panic. -/
def randomStringLoop (charset : List Char) (rnd : Nat → RandOutcome) :
    List Nat → GenResult (List Char)
  | [] => .ok []
  | i :: rest =>
      match rnd i with
      | .fail m => .err ("failed to generate random string: " ++ m)
      | .val n =>
          match charset[n]? with
          | none => .panicked "index out of range"
          | some ch =>
              match randomStringLoop charset rnd rest with
              | .ok cs => .ok (ch :: cs)
              | .err m => .err m
              | .panicked m => .panicked m

/-- RandomStringGenerator.Generate: make([]byte, Length) panics for a
negative Length; otherwise Length independent draws index the charset. -/
def randomStringGenerate (length : Int) (charsetName : String)
    (rnd : Nat → RandOutcome) : GenResult String :=
  if length < 0 then .panicked "makeslice: len out of range"
  else
    match randomStringLoop (getCharset charsetName).toList rnd
        (List.range length.toNat) with
    | .ok cs => .ok (String.mk cs)
    | .err m => .err m
    | .panicked m => .panicked m

/-- EndpointConfig from package config, with the generator definitions
(Go `any` values) abstracted by a type parameter. -/
structure EndpointConfig (α : Type) where
  path : String
  method : String
  headers : List (String × String)
  pathParameters : List (String × α)
  queryParameters : List (String × α)
  bodyParameters : Option α

/-- An HTTP response, as far as the runner inspects it. -/
structure HttpResponse where
  statusCode : Int
deriving Repr, DecidableEq

/-- The error value returned by http.Client.Do, always a url.Error
wrapping an operation, a URL and an inner error. -/
structure UrlError where
  op : String
  url : String
  errMsg : String
deriving Repr, DecidableEq

/-- url.Error.Error() renders fmt.Sprintf("%s %q: %s", Op, URL, Err). -/
def UrlError.errorString (e : UrlError) : String :=
  e.op ++ " \"" ++ e.url ++ "\": " ++ e.errMsg

/-- Environment of one makeRequest call: the outcomes of its fallible
steps (URL building, query-parameter resolution, body generation,
request construction, transport) together with the clock readings used
for the duration and the timestamp. -/
structure TransportEnv where
  buildURLResult : Except String String
  addQueryResult : Except String String
  bodyResult : Except String (List Nat)
  newRequestResult : Except String Unit
  doResult : Except UrlError HttpResponse
  sinceStart : Int
  now : Int

/-- createErrorMetric from the runner: statusCode 0, IsError true, the
given message, elapsed duration from attempt start. -/
def createErrorMetric (url method errorMsg : String) (env : TransportEnv) :
    MetricDetail :=
  { url := url, method := method, statusCode := 0
    duration := env.sinceStart, isError := true
    errorMsg := errorMsg, timestamp := env.now }

/-- makeRequest from the runner: short-circuits to an error record on the
first failing step, otherwise returns a record carrying the response
status code with IsError false.  On a query-parameter failure Go's
multiple assignment has already overwritten fullURL with the empty
string returned alongside the error, so the error record carries "". -/
def makeRequest {α : Type} (baseURL endpointName : String)
    (endpoint : EndpointConfig α) (env : TransportEnv) : MetricDetail :=
  match env.buildURLResult with
  | .error e =>
      createErrorMetric (baseURL ++ endpoint.path) endpoint.method
        ("URL building failed: " ++ e) env
  | .ok fullURL =>
      match (if 0 < endpoint.queryParameters.length
             then env.addQueryResult else .ok fullURL) with
      | .error e =>
          createErrorMetric "" endpoint.method ("Query params failed: " ++ e) env
      | .ok fullURL2 =>
          match (match endpoint.bodyParameters with
                 | none => Except.ok ()
                 | some _ => env.bodyResult.map (fun _ => ())) with
          | .error e =>
              createErrorMetric fullURL2 endpoint.method
                ("Body generation failed: " ++ e) env
          | .ok _ =>
              match env.newRequestResult with
              | .error e =>
                  createErrorMetric fullURL2 endpoint.method
                    ("Request creation failed: " ++ e) env
              | .ok _ =>
                  match env.doResult with
                  | .error e =>
                      createErrorMetric fullURL2 endpoint.method e.errorString env
                  | .ok resp =>
                      { url := fullURL2, method := endpoint.method
                        statusCode := resp.statusCode
                        duration := env.sinceStart, isError := false
                        errorMsg := "", timestamp := env.now }

/-- An error record in the sense of the claim: no status code, error flag
set, and a non-empty message. -/
def isErrorRecord (d : MetricDetail) : Prop :=
  d.statusCode = 0 ∧ d.isError = true ∧ d.errorMsg ≠ ""

/-- Concrete endpoint used by witnesses. -/
def sampleEndpoint : EndpointConfig Unit :=
  { path := "/api", method := "GET", headers := []
    pathParameters := [], queryParameters := [], bodyParameters := none }

/-- Concrete all-steps-succeed environment used by witnesses. -/
def sampleEnvOk : TransportEnv :=
  { buildURLResult := .ok "http://h/api", addQueryResult := .ok "http://h/api"
    bodyResult := .ok [], newRequestResult := .ok ()
    doResult := .ok { statusCode := 503 }, sinceStart := 7, now := 9 }

/-- Concrete transport-failure environment used by witnesses. -/
def sampleEnvFail : TransportEnv :=
  { buildURLResult := .error "boom", addQueryResult := .ok ""
    bodyResult := .ok [], newRequestResult := .ok ()
    doResult := .ok { statusCode := 200 }, sinceStart := 7, now := 9 }

/-- Round-robin arm of selectEndpoint.  The endpoint-name list is rebuilt
by ranging over the Go endpoints map on every call, so the enumeration
order at call k is an arbitrary function ord k of the call index; the
shared counter has been incremented once per earlier call, so at call k
it equals k, and the selected name is names[k mod len(names)] of that
call's enumeration (an empty enumeration would panic on mod by zero,
surfacing here as none). -/
def selectEndpointRR (ord : Nat → List String) (k : Nat) : Option String :=
  (ord k)[k % (ord k).length]?

/-- Left brace character, written by code point to keep it out of
string literals. -/
def lbrace : Char := Char.ofNat 123

/-- Right brace character. -/
def rbrace : Char := Char.ofNat 125

/-- Go strings.HasSuffix on character lists. -/
def goHasSuffix (s suffix : List Char) : Bool :=
  decide (suffix.length ≤ s.length) &&
    decide (s.drop (s.length - suffix.length) = suffix)

/-- Go strings.TrimSuffix on character lists: remove one copy of the
suffix when present, by slicing off its length. -/
def goTrimSuffix (s suffix : List Char) : List Char :=
  if goHasSuffix s suffix then s.take (s.length - suffix.length) else s

/-- Go strings.ReplaceAll on character lists for a non-empty pattern (the
runner only ever substitutes brace-wrapped placeholder names, which are
never empty; Go's special empty-pattern behaviour is not modelled). -/
def replaceAllAux (pat rep : List Char) : List Char → List Char
  | [] => []
  | c :: rest =>
      if h : pat ≠ [] ∧ pat.isPrefixOf (c :: rest) then
        rep ++ replaceAllAux pat rep ((c :: rest).drop pat.length)
      else c :: replaceAllAux pat rep rest
termination_by s => s.length
decreasing_by
  · simp only [List.length_drop, List.length_cons]
    have hp : 0 < pat.length := List.length_pos.mpr h.1
    have hle : pat.length ≤ (c :: rest).length :=
      List.IsPrefix.length_le ( List.isPrefixOf_iff_prefix.mp h.2)
    simp only [List.length_cons] at hle
    omega
  · simp only [List.length_cons]
    omega

/-- Go strings.ReplaceAll as used by buildURL. -/
def replaceAll (s pat rep : List Char) : List Char := replaceAllAux pat rep s

/-- Path-parameter loop of buildURL: for each parameter, the outcome of
generator creation and evaluation (pre-rendered to its %v string form)
replaces the brace-wrapped placeholder; the first failure aborts. -/
def resolvePathParams :
    List Char → List (List Char × Except String (List Char)) →
      Except String (List Char)
  | path, [] => .ok path
  | _, (_, .error e) :: _ => .error e
  | path, (name, .ok v) :: rest =>
      resolvePathParams (replaceAll path (lbrace :: name ++ [rbrace]) v) rest

/-- buildURL from the runner: resolve path parameters into the path, then
return Sprintf("%s%s", strings.TrimSuffix(baseURL, "/"), fullPath) - a
plain concatenation, with no separator inserted by this function. -/
def buildURL (baseURL path : List Char)
    (pathParams : List (List Char × Except String (List Char))) :
    Except String (List Char) :=
  match resolvePathParams path pathParams with
  | .error e => .error e
  | .ok fullPath => .ok (goTrimSuffix baseURL ['/'] ++ fullPath)

/-- Specification-side strip of one trailing slash, phrased from the
amended claim: drop the final character exactly when it is a slash. -/
def stripOneTrailingSlash (cs : List Char) : List Char :=
  match cs.getLast? with
  | some c => if c = '/' then cs.dropLast else cs
  | none => cs

/-- ExecutionConfig from package config. -/
structure ExecutionConfig where
  mode : String
  durationSeconds : Int
  requestTimeoutMs : Int
  requestsPerSecond : Int
deriving Repr, DecidableEq

/-- EndpointSelectionConfig from package config. -/
structure EndpointSelectionConfig where
  strategy : String
  weights : List (String × Rat)

/-- Config from package config, restricted to the fields the runner
reads; the endpoints map is carried as an association list. -/
structure Config (α : Type) where
  baseUrls : List String
  execution : ExecutionConfig
  endpoints : List (String × EndpointConfig α)
  endpointSelection : EndpointSelectionConfig

/-- Marker that runFixedRPSMode passed all three validations and entered
the dispatch loop.  An Except.error return happens strictly before the
loop: no request task has been spawned and no result record produced. -/
inductive RunStarted where
  | fixedLoop
deriving Repr, DecidableEq

/-- Validation prefix of runFixedRPSMode: the three fail-fast checks, in
source order, before the ticker loop. -/
def runFixedRPSMode {α : Type} (cfg : Config α) : Except String RunStarted :=
  if cfg.execution.requestsPerSecond ≤ 0 then
    .error "requestsPerSecond must be positive for fixed mode"
  else if cfg.endpoints.length = 0 then
    .error "no endpoints configured"
  else if cfg.baseUrls.length = 0 then
    .error "no base URLs configured"
  else .ok .fixedLoop

/-- Run from the runner: dispatch on the execution mode; ramp is declared
but unimplemented and any other mode is rejected. -/
def run {α : Type} (cfg : Config α) : Except String RunStarted :=
  if cfg.execution.mode = "fixed" then runFixedRPSMode cfg
  else if cfg.execution.mode = "ramp" then
    .error "ramp up mode not yet implemented"
  else .error ("unknown mode: " ++ cfg.execution.mode)

/-- Fixed-mode configuration with a zero rate, used by the C9 witness. -/
def zeroRateConfig : Config Unit :=
  { baseUrls := ["http://h"]
    execution := { mode := "fixed", durationSeconds := 1
                   requestTimeoutMs := 5000, requestsPerSecond := 0 }
    endpoints := [("e", sampleEndpoint)]
    endpointSelection := { strategy := "roundRobin", weights := [] } }

/-- Configuration with an unknown mode, used by the C9 witness. -/
def burstModeConfig : Config Unit :=
  { baseUrls := ["http://h"]
    execution := { mode := "burst", durationSeconds := 1
                   requestTimeoutMs := 5000, requestsPerSecond := 10 }
    endpoints := [("e", sampleEndpoint)]
    endpointSelection := { strategy := "roundRobin", weights := [] } }

/-! ## Theorems -/

theorem getResultsStep_totalRequests (res : AggregatedResults) (r : MetricDetail) :
    (getResultsStep res r).totalRequests = res.totalRequests + 1 := rfl

theorem getResultsStep_minDuration (res : AggregatedResults) (r : MetricDetail) :
    (getResultsStep res r).minDuration = min res.minDuration r.duration := by
  simp only [getResultsStep]
  omega

theorem getResultsStep_maxDuration (res : AggregatedResults) (r : MetricDetail) :
    (getResultsStep res r).maxDuration = max res.maxDuration r.duration := by
  simp only [getResultsStep]
  omega

/-- Invariant of the GetResults loop: after folding a record list onto any
starting state, the scalar fields are determined by the start state and
the list. -/
theorem foldl_getResultsStep_fields (l : List MetricDetail) (s : AggregatedResults) :
    (l.foldl getResultsStep s).totalRequests = s.totalRequests + l.length ∧
    (l.foldl getResultsStep s).failedRequests
      = s.failedRequests + l.countP isFailure ∧
    (l.foldl getResultsStep s).successfulRequests
      = s.successfulRequests + l.countP (fun r => !isFailure r) ∧
    (l.foldl getResultsStep s).totalDuration
      = s.totalDuration + (l.map MetricDetail.duration).sum ∧
    (l.foldl getResultsStep s).minDuration
      = (l.map MetricDetail.duration).foldl min s.minDuration ∧
    (l.foldl getResultsStep s).maxDuration
      = (l.map MetricDetail.duration).foldl max s.maxDuration := by
  induction l generalizing s with
  | nil => simp
  | cons r rest ih =>
    obtain ⟨h1, h2, h3, h4, h5, h6⟩ := ih (getResultsStep s r)
    refine ⟨?_, ?_, ?_, ?_, ?_, ?_⟩
    · simp only [List.foldl_cons, h1, getResultsStep_totalRequests,
        List.length_cons]
      push_cast
      ring
    · simp only [List.foldl_cons, h2, List.countP_cons]
      by_cases hf : isFailure r
      · simp [getResultsStep, hf]
        push_cast
        omega
      · simp [getResultsStep, hf]
    · simp only [List.foldl_cons, h3, List.countP_cons]
      by_cases hf : isFailure r
      · simp [getResultsStep, hf]
      · simp [getResultsStep, hf]
        push_cast
        omega
    · simp only [List.foldl_cons, h4, List.map_cons, List.sum_cons]
      simp only [getResultsStep]
      ring
    · simp only [List.foldl_cons, h5, List.map_cons,
        getResultsStep_minDuration]
    · simp only [List.foldl_cons, h6, List.map_cons,
        getResultsStep_maxDuration]

theorem countP_not_add (l : List MetricDetail) :
    (l.countP (fun r => !isFailure r) : Int) + l.countP isFailure = l.length := by
  induction l with
  | nil => simp
  | cons r rest ih =>
    simp only [List.countP_cons, List.length_cons]
    by_cases hf : isFailure r <;> simp [hf] <;> push_cast <;> omega

/-- C1: for every ingested record list, the snapshot satisfies
successful + failed = total, total is the number of records, and failed
counts exactly the records with IsError or StatusCode at least 400. -/
theorem getResults_counts (l : List MetricDetail) :
    (getResults l).successfulRequests + (getResults l).failedRequests
        = (getResults l).totalRequests ∧
    (getResults l).totalRequests = l.length ∧
    (getResults l).failedRequests
        = l.countP (fun r => r.isError || decide (400 ≤ r.statusCode)) := by
  match l with
  | [] => simp [getResults]
  | first :: rest =>
    simp only [getResults]
    obtain ⟨h1, h2, h3, -, -, -⟩ :=
      foldl_getResultsStep_fields (first :: rest) (getResultsInit first)
    have hpos :
        0 < ((first :: rest).foldl getResultsStep (getResultsInit first)).totalRequests := by
      rw [h1]
      simp only [getResultsInit, List.length_cons]
      push_cast
      omega
    rw [if_pos hpos]
    have hiso :
        (fun (r : MetricDetail) => r.isError || decide (400 ≤ r.statusCode)) = isFailure := rfl
    simp only [getResultsInit] at h1 h2 h3 ⊢
    rw [hiso]
    refine ⟨?_, ?_, ?_⟩
    · have := countP_not_add (first :: rest)
      omega
    · omega
    · omega

theorem foldl_min_le_init (ds : List Int) (a : Int) : ds.foldl min a ≤ a := by
  induction ds generalizing a with
  | nil => simp
  | cons d ds ih =>
    simp only [List.foldl_cons]
    exact le_trans (ih (min a d)) (min_le_left a d)

theorem foldl_min_le_mem (ds : List Int) (a : Int) : ∀ d ∈ ds, ds.foldl min a ≤ d := by
  induction ds generalizing a with
  | nil => simp
  | cons d ds ih =>
    intro x hx
    rcases List.mem_cons.mp hx with rfl | hx
    · exact le_trans (foldl_min_le_init ds (min a x)) (min_le_right a x)
    · exact ih (min a d) x hx

theorem init_le_foldl_max (ds : List Int) (a : Int) : a ≤ ds.foldl max a := by
  induction ds generalizing a with
  | nil => simp
  | cons d ds ih =>
    simp only [List.foldl_cons]
    exact le_trans (le_max_left a d) (ih (max a d))

theorem mem_le_foldl_max (ds : List Int) (a : Int) : ∀ d ∈ ds, d ≤ ds.foldl max a := by
  induction ds generalizing a with
  | nil => simp
  | cons d ds ih =>
    intro x hx
    rcases List.mem_cons.mp hx with rfl | hx
    · exact le_trans (le_max_right a x) (init_le_foldl_max ds (max a x))
    · exact ih (max a d) x hx

theorem length_mul_le_sum (ds : List Int) (m : Int) (h : ∀ d ∈ ds, m ≤ d) :
    (ds.length : Int) * m ≤ ds.sum := by
  have := List.card_nsmul_le_sum ds m h
  rwa [nsmul_eq_mul] at this

theorem sum_le_length_mul (ds : List Int) (M : Int) (h : ∀ d ∈ ds, d ≤ M) :
    ds.sum ≤ (ds.length : Int) * M := by
  have := List.sum_le_card_nsmul ds M h
  rwa [nsmul_eq_mul] at this

/-- Go's truncating division `t / n` (for `time.Duration` operands) is at
least m once `n * m ≤ t` and `0 < n`. -/
theorem le_tdiv_of_mul_le {n m t : Int} (hn : 0 < n) (h : n * m ≤ t) :
    m ≤ Int.tdiv t n := by
  rcases le_or_lt 0 t with ht | ht
  · rw [Int.tdiv_eq_ediv ht hn.le]
    exact (Int.le_ediv_iff_mul_le hn).mpr (by linarith [mul_comm m n])
  · have hneg : Int.tdiv t n = -(Int.tdiv (-t) n) := by
      rw [← Int.neg_tdiv, neg_neg]
    rw [hneg, Int.tdiv_eq_ediv (by omega) hn.le]
    have h3 : (-t) / n ≤ (n * (-m)) / n := Int.ediv_le_ediv hn (by linarith)
    rw [Int.mul_ediv_cancel_left _ hn.ne'] at h3
    omega

/-- Go's truncating division `t / n` is at most M once `t ≤ n * M`,
`0 ≤ M` and `0 < n`. -/
theorem tdiv_le_of_le_mul {n M t : Int} (hn : 0 < n) (hM : 0 ≤ M) (h : t ≤ n * M) :
    Int.tdiv t n ≤ M := by
  rcases le_or_lt 0 t with ht | ht
  · rw [Int.tdiv_eq_ediv ht hn.le]
    have h3 : t / n ≤ (n * M) / n := Int.ediv_le_ediv hn h
    rwa [Int.mul_ediv_cancel_left _ hn.ne'] at h3
  · have hneg : Int.tdiv t n = -(Int.tdiv (-t) n) := by
      rw [← Int.neg_tdiv, neg_neg]
    rw [hneg, Int.tdiv_eq_ediv (by omega) hn.le]
    have h4 : 0 ≤ (-t) / n := Int.ediv_nonneg (by omega) hn.le
    omega

/-- C2: the snapshot satisfies MinDuration <= AvgDuration <= MaxDuration
whenever TotalRequests > 0, with AvgDuration the truncating integer
division of TotalDuration by TotalRequests; on an empty record set the
three durations are zero and both histogram maps are made but empty. -/
theorem getResults_durations (l : List MetricDetail) :
    (0 < (getResults l).totalRequests →
      (getResults l).avgDuration
          = Int.tdiv (getResults l).totalDuration (getResults l).totalRequests ∧
      (getResults l).minDuration ≤ (getResults l).avgDuration ∧
      (getResults l).avgDuration ≤ (getResults l).maxDuration) ∧
    (l = [] →
      (getResults l).minDuration = 0 ∧ (getResults l).avgDuration = 0 ∧
      (getResults l).maxDuration = 0 ∧
      (getResults l).statusCodesCount = some [] ∧
      (getResults l).errorDetails = some []) := by
  match l with
  | [] =>
    constructor
    · intro h
      simp [getResults] at h
    · intro _
      simp [getResults]
  | first :: rest =>
    obtain ⟨h1, -, -, h4, h5, h6⟩ :=
      foldl_getResultsStep_fields (first :: rest) (getResultsInit first)
    simp only [getResults]
    simp only [getResultsInit] at h1 h4 h5 h6 ⊢
    have hpos :
        0 < (List.foldl getResultsStep
          { totalRequests := 0, successfulRequests := 0, failedRequests := 0
            totalDuration := 0, avgDuration := 0
            minDuration := first.duration, maxDuration := 0
            statusCodesCount := some [], errorDetails := some [] }
          (first :: rest)).totalRequests := by
      rw [h1]
      simp only [List.length_cons]
      push_cast
      omega
    rw [if_pos hpos]
    refine ⟨fun _ => ⟨rfl, ?_, ?_⟩, fun hnil => by cases hnil⟩
    · have hmin :
          ∀ d ∈ (first :: rest).map MetricDetail.duration,
            (List.foldl getResultsStep
              { totalRequests := 0, successfulRequests := 0, failedRequests := 0
                totalDuration := 0, avgDuration := 0
                minDuration := first.duration, maxDuration := 0
                statusCodesCount := some [], errorDetails := some [] }
              (first :: rest)).minDuration ≤ d := by
        rw [h5]
        exact foldl_min_le_mem _ _
      have hsum := length_mul_le_sum _ _ hmin
      rw [List.length_map] at hsum
      apply le_tdiv_of_mul_le hpos
      rw [h4, h1]
      simpa using hsum
    · have hmax :
          ∀ d ∈ (first :: rest).map MetricDetail.duration,
            d ≤ (List.foldl getResultsStep
              { totalRequests := 0, successfulRequests := 0, failedRequests := 0
                totalDuration := 0, avgDuration := 0
                minDuration := first.duration, maxDuration := 0
                statusCodesCount := some [], errorDetails := some [] }
              (first :: rest)).maxDuration := by
        rw [h6]
        exact mem_le_foldl_max _ _
      have hM :
          (0 : Int) ≤ (List.foldl getResultsStep
            { totalRequests := 0, successfulRequests := 0, failedRequests := 0
              totalDuration := 0, avgDuration := 0
              minDuration := first.duration, maxDuration := 0
              statusCodesCount := some [], errorDetails := some [] }
            (first :: rest)).maxDuration := by
        rw [h6]
        exact init_le_foldl_max _ _
      have hsum := sum_le_length_mul _ _ hmax
      rw [List.length_map] at hsum
      apply tdiv_le_of_le_mul hpos hM
      rw [h4, h1]
      simpa using hsum

/-- Witness for C2 at a concrete one-record list and at the empty list. -/
theorem getResults_durations_witness :
    ((getResults [sampleDetail]).minDuration ≤ (getResults [sampleDetail]).avgDuration) ∧
    (getResults ([] : List MetricDetail)).minDuration = 0 :=
  ⟨((getResults_durations [sampleDetail]).1 (by decide)).2.1,
   ((getResults_durations ([] : List MetricDetail)).2 rfl).1⟩

/-- C4: with min > max the generator always returns min, for every random
outcome; otherwise every in-range draw yields a value in [min, max]. -/
theorem randomIntGenerate_range (minV maxV : Int) (rnd : RandOutcome) :
    (maxV < minV → randomIntGenerate minV maxV rnd = .ok minV) ∧
    (minV ≤ maxV → ∀ n : Nat, rnd = .val n → (n : Int) < maxV - minV + 1 →
      ∃ v, randomIntGenerate minV maxV rnd = .ok v ∧ minV ≤ v ∧ v ≤ maxV) := by
  constructor
  · intro h
    simp [randomIntGenerate, le_of_lt h]
  · intro _ n hn hlt
    subst hn
    by_cases he : maxV ≤ minV
    · exact ⟨minV, by simp [randomIntGenerate, he], le_refl _, by omega⟩
    · refine ⟨minV + n, ?_, by omega, by omega⟩
      simp [randomIntGenerate, he]

/-- Witness for C4: concrete draws on both sides of the min/max order. -/
theorem randomIntGenerate_range_witness :
    randomIntGenerate 5 2 (.val 0) = .ok 5 ∧
    ∃ v, randomIntGenerate 2 5 (.val 3) = .ok v ∧ 2 ≤ v ∧ v ≤ 5 :=
  ⟨(randomIntGenerate_range 5 2 (.val 0)).1 (by decide),
   (randomIntGenerate_range 2 5 (.val 3)).2 (by decide) 3 rfl (by decide)⟩

theorem drop_eq_cons_of_getElem {α : Type} (values : List α) (i : Nat) (v : α)
    (hv : values[i]? = some v) :
    values.drop i = v :: values.drop (i + 1) := by
  have h1 : (values.drop i).head? = some v := by rw [List.head?_drop, hv]
  have h2 : (values.drop i).tail = values.drop (i + 1) := List.tail_drop values i
  cases hd : values.drop i with
  | nil => rw [hd] at h1; cases h1
  | cons a as =>
    rw [hd] at h1 h2
    simp only [List.head?_cons, Option.some.injEq] at h1
    simp only [List.tail_cons] at h2
    rw [h1, h2]

/-- The indexed loop of generateWeightedChoice agrees with the
specification-side walk over the remaining values, as long as the index
stays in range. -/
theorem weightedLoop_eq_specWalk {α : Type} (values : List α) (x : Rat) :
    ∀ (ws : List Rat) (acc : Rat) (i : Nat), i + ws.length ≤ values.length →
      weightedLoop values x ws acc i
        = (specWalk (values.drop i) ws x acc).map GenResult.ok := by
  intro ws
  induction ws with
  | nil =>
    intro acc i _
    cases hd : values.drop i <;> simp [weightedLoop, specWalk]
  | cons w ws ih =>
    intro acc i h
    have hlt : i < values.length := by
      simp only [List.length_cons] at h
      omega
    obtain ⟨v, hv⟩ : ∃ v, values[i]? = some v :=
      ⟨values[i], by simp [List.getElem?_eq_getElem hlt]⟩
    have hdrop := drop_eq_cons_of_getElem values i v hv
    by_cases hx : x ≤ acc + w
    · simp [weightedLoop, hx, hv, hdrop, specWalk]
    · have hrec := ih (acc + w) (i + 1) (by simp only [List.length_cons] at h; omega)
      simp [weightedLoop, hx, hdrop, specWalk, hrec]

/-- The model of int64(q) stays below q for non-negative q. -/
theorem truncToInt_le {q : Rat} (hq : 0 ≤ q) : (truncToInt q : Rat) ≤ q := by
  rw [truncToInt, if_pos hq]
  exact Int.floor_le q

/-- C5: for a non-empty values list with equally many weights, Generate
returns the first value when the weight sum W is not positive; otherwise
every possible draw num yields x = num/1000 in [0, W) and the result is
exactly the specification walk: the first value whose cumulative weight
reaches x, with fall-back to the last value. -/
theorem choiceGenerate_weighted {α : Type} (values : List α) (weights : List Rat)
    (hne : values ≠ []) (hlen : weights.length = values.length) :
    (weights.foldl (· + ·) 0 ≤ 0 → ∀ rnd, ∃ v0, values.head? = some v0 ∧
        choiceGenerate values weights rnd = .ok v0) ∧
    (0 < weights.foldl (· + ·) 0 → ∀ num : Nat,
        (num : Int) < truncToInt (weights.foldl (· + ·) 0 * 1000) →
        (0 : Rat) ≤ (num : Rat) / 1000 ∧
        (num : Rat) / 1000 < weights.foldl (· + ·) 0 ∧
        ∃ v, specWeightedPick values weights ((num : Rat) / 1000) = some v ∧
          choiceGenerate values weights (.val num) = .ok v) := by
  have hvpos : 0 < values.length := List.length_pos.mpr hne
  have hguard : ¬ values.length = 0 := by omega
  have hcond : 0 < weights.length ∧ weights.length = values.length := by
    constructor
    · omega
    · exact hlen
  constructor
  · intro hW rnd
    obtain ⟨v0, hv0⟩ : ∃ v0, values[0]? = some v0 :=
      ⟨values[0], by simp [List.getElem?_eq_getElem hvpos]⟩
    refine ⟨v0, by rw [List.head?_eq_getElem?]; exact hv0, ?_⟩
    simp only [choiceGenerate, if_neg hguard, if_pos hcond]
    simp [generateWeightedChoice, hW, hv0]
  · intro hW num hnum
    have hx0 : (0 : Rat) ≤ (num : Rat) / 1000 := by positivity
    have htr := truncToInt_le (q := weights.foldl (· + ·) 0 * 1000) (by positivity)
    have hxW : (num : Rat) / 1000 < weights.foldl (· + ·) 0 := by
      rw [div_lt_iff₀ (by norm_num : (0 : Rat) < 1000)]
      calc (num : Rat) < (truncToInt (weights.foldl (· + ·) 0 * 1000) : Rat) := by
              exact_mod_cast hnum
        _ ≤ weights.foldl (· + ·) 0 * 1000 := htr
    refine ⟨hx0, hxW, ?_⟩
    have hWne : ¬ weights.foldl (· + ·) 0 ≤ 0 := not_le.mpr hW
    have hbound : ¬ truncToInt (weights.foldl (· + ·) 0 * 1000) ≤ 0 := by
      have : (0 : Int) ≤ num := Int.ofNat_nonneg num
      omega
    have hloop := weightedLoop_eq_specWalk values ((num : Rat) / 1000) weights 0 0
      (by omega)
    simp only [List.drop_zero] at hloop
    simp only [choiceGenerate, if_neg hguard, if_pos hcond,
      generateWeightedChoice, if_neg hWne, if_neg hbound, hloop]
    simp only [specWeightedPick]
    cases hwalk : specWalk values weights ((num : Rat) / 1000) 0 with
    | some v => exact ⟨v, rfl, by simp⟩
    | none =>
      obtain ⟨vl, hvl⟩ : ∃ vl, values.getLast? = some vl :=
        ⟨values.getLast hne, List.getLast?_eq_getLast values hne⟩
      exact ⟨vl, hvl, by simp [hvl]⟩

/-- Witness for C5: two values with weights one half each; the draw 600
gives x = 3/5 and selects the second value. -/
theorem choiceGenerate_weighted_witness :
    ∃ v, specWeightedPick ["a", "b"] [(1 : Rat)/2, (1 : Rat)/2] ((600 : Rat) / 1000)
          = some v ∧
      choiceGenerate ["a", "b"] [(1 : Rat)/2, (1 : Rat)/2] (.val 600) = .ok v :=
  ((choiceGenerate_weighted ["a", "b"] [(1 : Rat)/2, (1 : Rat)/2]
      (by decide) (by decide)).2 (by norm_num) 600 (by norm_num [truncToInt])).2.2

/-- C10: with non-empty values and a weights list of a different length,
Generate behaves exactly as if no weights were given: the weights are
silently ignored and the draw is uniform over the values. -/
theorem choiceGenerate_ignores_mismatched_weights {α : Type} (values : List α)
    (weights : List Rat) (rnd : RandOutcome) (hne : values ≠ [])
    (hlen : weights.length ≠ values.length) :
    choiceGenerate values weights rnd = choiceGenerate values [] rnd ∧
    (∀ num : Nat, rnd = .val num → ∀ h : num < values.length,
      choiceGenerate values weights rnd = .ok (values.get ⟨num, h⟩)) := by
  have hvpos : 0 < values.length := List.length_pos.mpr hne
  have hguard : ¬ values.length = 0 := by omega
  have hcond : ¬ (0 < weights.length ∧ weights.length = values.length) := by
    intro h
    exact hlen h.2
  have hcond0 : ¬ (0 < ([] : List Rat).length ∧
      ([] : List Rat).length = values.length) := by
    simp
  constructor
  · simp only [choiceGenerate, if_neg hguard, if_neg hcond, if_neg hcond0]
  · intro num hr h
    subst hr
    simp only [choiceGenerate, if_neg hguard, if_neg hcond,
      List.getElem?_eq_getElem h]
    rfl

/-- Witness for C10: three values, one weight; the draw 2 picks the third
value exactly as in the unweighted draw. -/
theorem choiceGenerate_ignores_mismatched_weights_witness :
    choiceGenerate ["a", "b", "c"] [(1 : Rat)] (.val 2)
        = choiceGenerate ["a", "b", "c"] [] (.val 2) ∧
    choiceGenerate ["a", "b", "c"] [(1 : Rat)] (.val 2) = .ok "c" :=
  ⟨(choiceGenerate_ignores_mismatched_weights ["a", "b", "c"] [(1 : Rat)]
      (.val 2) (by decide) (by decide)).1,
   (choiceGenerate_ignores_mismatched_weights ["a", "b", "c"] [(1 : Rat)]
      (.val 2) (by decide) (by decide)).2 2 rfl (by decide)⟩

/-- C6 (code bug): generator evaluation can panic the process.  A choice
generator with the single exact float weight 1/2048 has a positive
weight sum, yet int64(totalWeight*1000) = 0 is handed to crypto/rand.Int,
which panics for a non-positive bound; and a randomString generator with
a negative configured length panics in make. -/
theorem generator_panics :
    choiceGenerate ["a"] [(1 : Rat)/2048] (.val 0)
        = .panicked "crypto/rand: argument to Int is <= 0" ∧
    randomStringGenerate (-1) "hex" (fun _ => .val 0)
        = .panicked "makeslice: len out of range" := by
  constructor
  · simp only [choiceGenerate, generateWeightedChoice, truncToInt, List.foldl]
    norm_num
  · decide

theorem append_msg_ne_empty (p e : String) (hp : p.data ≠ []) : p ++ e ≠ "" := by
  intro h
  have hd := congrArg String.data h
  rw [String.data_append] at hd
  exact hp (List.append_eq_nil.mp hd).1

theorem errorString_ne_empty (e : UrlError) : e.errorString ≠ "" := by
  intro h
  have h2 := congrArg String.length h
  rw [UrlError.errorString, String.length_append, String.length_append,
    String.length_append, String.length_append] at h2
  have hq : (" \"" : String).length = 2 := rfl
  have hc : ("\": " : String).length = 3 := rfl
  have h0 : ("" : String).length = 0 := rfl
  omega

/-- C3: every call returns exactly one record; each failing step (URL
building, query parameters, body generation, request construction,
transport) yields statusCode 0, IsError true and a non-empty message;
a received response yields its status code with IsError false, 4xx and
5xx included. -/
theorem makeRequest_record {α : Type} (baseURL endpointName : String)
    (endpoint : EndpointConfig α) (env : TransportEnv) :
    (∀ e, env.buildURLResult = .error e →
      isErrorRecord (makeRequest baseURL endpointName endpoint env)) ∧
    (∀ u e, env.buildURLResult = .ok u →
      0 < endpoint.queryParameters.length → env.addQueryResult = .error e →
      isErrorRecord (makeRequest baseURL endpointName endpoint env)) ∧
    (∀ u u2 e, env.buildURLResult = .ok u →
      (if 0 < endpoint.queryParameters.length
       then env.addQueryResult else Except.ok u) = .ok u2 →
      (match endpoint.bodyParameters with
       | none => Except.ok ()
       | some _ => env.bodyResult.map (fun _ => ())) = .error e →
      isErrorRecord (makeRequest baseURL endpointName endpoint env)) ∧
    (∀ u u2 e, env.buildURLResult = .ok u →
      (if 0 < endpoint.queryParameters.length
       then env.addQueryResult else Except.ok u) = .ok u2 →
      (match endpoint.bodyParameters with
       | none => Except.ok ()
       | some _ => env.bodyResult.map (fun _ => ())) = .ok () →
      env.newRequestResult = .error e →
      isErrorRecord (makeRequest baseURL endpointName endpoint env)) ∧
    (∀ u u2 e, env.buildURLResult = .ok u →
      (if 0 < endpoint.queryParameters.length
       then env.addQueryResult else Except.ok u) = .ok u2 →
      (match endpoint.bodyParameters with
       | none => Except.ok ()
       | some _ => env.bodyResult.map (fun _ => ())) = .ok () →
      env.newRequestResult = .ok () → env.doResult = .error e →
      isErrorRecord (makeRequest baseURL endpointName endpoint env)) ∧
    (∀ u u2 resp, env.buildURLResult = .ok u →
      (if 0 < endpoint.queryParameters.length
       then env.addQueryResult else Except.ok u) = .ok u2 →
      (match endpoint.bodyParameters with
       | none => Except.ok ()
       | some _ => env.bodyResult.map (fun _ => ())) = .ok () →
      env.newRequestResult = .ok () → env.doResult = .ok resp →
      (makeRequest baseURL endpointName endpoint env).statusCode = resp.statusCode ∧
      (makeRequest baseURL endpointName endpoint env).isError = false ∧
      (makeRequest baseURL endpointName endpoint env).errorMsg = "") := by
  refine ⟨?_, ?_, ?_, ?_, ?_, ?_⟩
  · intro e he
    simp only [makeRequest, he]
    exact ⟨rfl, rfl, append_msg_ne_empty _ _ (by decide)⟩
  · intro u e hu hq ha
    simp only [makeRequest, hu, hq, if_true, ha]
    exact ⟨rfl, rfl, append_msg_ne_empty _ _ (by decide)⟩
  · intro u u2 e hu hq hb
    simp only [makeRequest, hu, hq, hb]
    exact ⟨rfl, rfl, append_msg_ne_empty _ _ (by decide)⟩
  · intro u u2 e hu hq hb hn
    simp only [makeRequest, hu, hq, hb, hn]
    exact ⟨rfl, rfl, append_msg_ne_empty _ _ (by decide)⟩
  · intro u u2 e hu hq hb hn hd
    simp only [makeRequest, hu, hq, hb, hn, hd]
    exact ⟨rfl, rfl, errorString_ne_empty e⟩
  · intro u u2 resp hu hq hb hn hd
    simp [makeRequest, hu, hq, hb, hn, hd]

/-- Witness for C3: a failing URL build yields an error record, and a
received 503 response yields statusCode 503 with IsError false. -/
theorem makeRequest_record_witness :
    isErrorRecord (makeRequest "http://h" "e" sampleEndpoint sampleEnvFail) ∧
    (makeRequest "http://h" "e" sampleEndpoint sampleEnvOk).statusCode = 503 ∧
    (makeRequest "http://h" "e" sampleEndpoint sampleEnvOk).isError = false :=
  ⟨(makeRequest_record "http://h" "e" sampleEndpoint sampleEnvFail).1 "boom" rfl,
   ((makeRequest_record "http://h" "e" sampleEndpoint sampleEnvOk).2.2.2.2.2
      "http://h/api" "http://h/api" { statusCode := 503 } rfl rfl rfl rfl rfl).1,
   ((makeRequest_record "http://h" "e" sampleEndpoint sampleEnvOk).2.2.2.2.2
      "http://h/api" "http://h/api" { statusCode := 503 } rfl rfl rfl rfl rfl).2.1⟩

/-- C7 (code bug): with the same three endpoints, a first call whose map
enumeration is a,b,c and a second call whose map enumeration is c,a,b
(both legal Go map iteration orders) return "a" twice, so six sequential
calls need not cycle a,b,c,a,b,c as documented. -/
theorem roundRobin_order_dependent :
    selectEndpointRR
        (fun k => if k = 0 then ["a", "b", "c"] else ["c", "a", "b"]) 0
      = some "a" ∧
    selectEndpointRR
        (fun k => if k = 0 then ["a", "b", "c"] else ["c", "a", "b"]) 1
      = some "a" ∧
    some "a" ≠ some "b" := by
  refine ⟨rfl, rfl, by decide⟩

/-- C8 counterexample: with base URL http://h (no trailing slash) and the
literal path api, buildURL returns http://hapi, not the claimed base,
separating slash, path concatenation http://h/api. -/
theorem buildURL_no_separator :
    buildURL "http://h".toList "api".toList [] = .ok "http://hapi".toList ∧
    "http://hapi".toList ≠ "http://h".toList ++ ['/'] ++ "api".toList := by
  constructor
  · rfl
  · decide

theorem drop_length_sub_one (cs : List Char) (h : cs ≠ []) :
    cs.drop (cs.length - 1) = [cs.getLast h] := by
  induction cs with
  | nil => cases h rfl
  | cons c rest ih =>
    cases rest with
    | nil => rfl
    | cons d t =>
      have hne : (d :: t) ≠ ([] : List Char) := by simp
      have hlen : (c :: d :: t).length - 1 = ((d :: t).length - 1) + 1 := by
        simp only [List.length_cons]
        omega
      rw [hlen, List.drop_succ_cons, ih hne, List.getLast_cons hne]

/-- The Go slice-based TrimSuffix of a single slash agrees with the
specification-side last-character strip. -/
theorem goTrimSuffix_slash (cs : List Char) :
    goTrimSuffix cs ['/'] = stripOneTrailingSlash cs := by
  cases hne : decide (cs = []) with
  | true =>
    have : cs = [] := of_decide_eq_true hne
    subst this
    rfl
  | false =>
    have hcs : cs ≠ [] := of_decide_eq_false hne
    have hdrop := drop_length_sub_one cs hcs
    have hlast := List.getLast?_eq_getLast cs hcs
    simp only [goTrimSuffix, goHasSuffix, stripOneTrailingSlash, hlast]
    by_cases hc : cs.getLast hcs = '/'
    · rw [if_pos hc]
      have hsuf : (decide (([ '/' ] : List Char).length ≤ cs.length) &&
          decide (cs.drop (cs.length - ([ '/' ] : List Char).length) = ['/'])) = true := by
        have h1 : (['/'] : List Char).length = 1 := rfl
        rw [h1, hdrop, hc]
        simp [Nat.one_le_iff_ne_zero, List.length_eq_zero, hcs]
      rw [if_pos hsuf]
      have h1 : (['/'] : List Char).length = 1 := rfl
      rw [h1, ← List.dropLast_eq_take]
    · rw [if_neg hc]
      have hsuf : (decide (([ '/' ] : List Char).length ≤ cs.length) &&
          decide (cs.drop (cs.length - ([ '/' ] : List Char).length) = ['/'])) = false := by
        have h1 : (['/'] : List Char).length = 1 := rfl
        rw [h1, hdrop]
        simp [hc]
      rw [if_neg (by rw [hsuf]; exact Bool.false_ne_true)]

/-- C8 amended: whenever path-parameter resolution succeeds, the full URL
is the base URL with one trailing slash (if present) removed,
concatenated directly with the resolved path; no separator is inserted
(so exactly one separating slash appears only when the resolved path
itself begins with a single slash and the stripped base does not end
with one). -/
theorem buildURL_concatenation (baseURL path : List Char)
    (pathParams : List (List Char × Except String (List Char)))
    (fullPath : List Char)
    (h : resolvePathParams path pathParams = .ok fullPath) :
    buildURL baseURL path pathParams
      = .ok (stripOneTrailingSlash baseURL ++ fullPath) := by
  rw [buildURL, h, goTrimSuffix_slash]

/-- Witness for C8 amended: a base with a trailing slash and a path with
a leading slash produce exactly one separating slash. -/
theorem buildURL_concatenation_witness :
    buildURL "http://h/".toList "/api".toList []
      = .ok (stripOneTrailingSlash "http://h/".toList ++ "/api".toList) :=
  buildURL_concatenation "http://h/".toList "/api".toList [] "/api".toList rfl

/-- C9: a fixed-mode configuration with a non-positive rate, no
endpoints, or no base URLs makes Run return an error before the dispatch
loop (so no request task is spawned and no record is produced), and a
mode other than fixed or ramp is likewise rejected up front. -/
theorem run_validates {α : Type} (cfg : Config α) :
    (cfg.execution.mode = "fixed" →
      (cfg.execution.requestsPerSecond ≤ 0 ∨ cfg.endpoints = [] ∨
       cfg.baseUrls = []) →
      ∃ msg, run cfg = .error msg) ∧
    (cfg.execution.mode ≠ "fixed" → cfg.execution.mode ≠ "ramp" →
      run cfg = .error ("unknown mode: " ++ cfg.execution.mode)) := by
  constructor
  · intro hmode hbad
    rw [run, if_pos hmode, runFixedRPSMode]
    by_cases h1 : cfg.execution.requestsPerSecond ≤ 0
    · exact ⟨_, by rw [if_pos h1]⟩
    · rw [if_neg h1]
      by_cases h2 : cfg.endpoints.length = 0
      · exact ⟨_, by rw [if_pos h2]⟩
      · rcases hbad with hb | hb | hb
        · exact absurd hb h1
        · exact absurd (by rw [hb]; rfl) h2
        · refine ⟨"no base URLs configured", ?_⟩
          rw [if_neg h2, if_pos (by rw [hb]; rfl)]
  · intro hfixed hramp
    rw [run, if_neg hfixed, if_neg hramp]

/-- Witness for C9: a fixed-mode config with zero rate is rejected, and a
burst-mode config is rejected as an unknown mode. -/
theorem run_validates_witness :
    (∃ msg, run zeroRateConfig = .error msg) ∧
    run burstModeConfig = .error ("unknown mode: " ++ "burst") :=
  ⟨(run_validates zeroRateConfig).1 rfl (Or.inl (by decide)),
   (run_validates burstModeConfig).2 (by decide) (by decide)⟩

end Benchmark
